import Mathlib

/-!
Shallow embedding of `src/py/memu_st_bridge.py` (the SillyTavern memU bridge)
and proofs about its specified behaviour.

Modelling conventions:
- JSON-like Python values are represented by the inductive type `PyVal`.
  Python `dict`s are association lists in insertion order; `dict` assignment
  replaces the first occurrence of a key in place (as CPython preserves key
  position on reassignment) and appends new keys at the end.
- Raisable Python code is modelled with `Except PyExc`, where `PyExc` carries
  the exception class name and message.
- External effects (the `memu` library constructor and its `memorize` call,
  `json.loads`, filesystem path resolution, clock and random suffix) are
  parameters of the model, constrained only where the source constrains them.
-/

/-- Python exception value: class name plus message. -/
structure PyExc where
  name : String
  msg : String
  deriving DecidableEq, Repr

/-- JSON-like Python value (the payloads the bridge manipulates). -/
inductive PyVal where
  | none
  | bool (b : Bool)
  | int (n : Int)
  | str (s : String)
  | list (xs : List PyVal)
  | dict (kvs : List (String × PyVal))

/-- A Python dict of string keys, in insertion order. -/
abbrev PyDict := List (String × PyVal)

/-- Python truthiness of a `PyVal` (`bool(v)`). -/
def pyTruthy : PyVal → Bool
  | .none => false
  | .bool b => b
  | .int n => n ≠ 0
  | .str s => s ≠ ""
  | .list xs => !xs.isEmpty
  | .dict kvs => !kvs.isEmpty

/-- Association-list lookup: `d.get(k)`, first occurrence wins. -/
def alGet {α : Type} : List (String × α) → String → Option α
  | [], _ => Option.none
  | (k', v) :: rest, k => if k' = k then some v else alGet rest k

/-- Association-list update: `d[k] = v`. Replaces the first occurrence of `k`
in place, or appends `(k, v)` when `k` is absent (CPython dict semantics). -/
def alSet {α : Type} : List (String × α) → String → α → List (String × α)
  | [], k, v => [(k, v)]
  | (k', v') :: rest, k, v =>
      if k' = k then (k, v) :: rest else (k', v') :: alSet rest k v

/-- Python `a or b` for values already computed (returns `a` when truthy). -/
def pyOrV (a b : PyVal) : PyVal := if pyTruthy a then a else b

/-- Value of `d.get(k) or dflt`. -/
def getOrDefault (d : PyDict) (k : String) (dflt : PyVal) : PyVal :=
  pyOrV ((alGet d k).getD PyVal.none) dflt

/-- Python whitespace test for `str.strip()` (ASCII whitespace; the unicode
space classes Python also strips never occur in the claims). -/
def isPyWs (c : Char) : Bool :=
  c == ' ' || c == '\t' || c == '\n' || c == '\r' || c.toNat == 11 || c.toNat == 12

/-- Model of Python `str.strip()`: drop leading and trailing whitespace. -/
def pyStrip (s : String) : String :=
  String.mk (((s.toList.dropWhile isPyWs).reverse.dropWhile isPyWs).reverse)

/-- ASCII lower-casing of one character (Python `str.lower()`; non-ASCII
case mapping is not modelled, no claim depends on it). -/
def charLower (c : Char) : Char :=
  if 65 ≤ c.toNat && c.toNat ≤ 90 then Char.ofNat (c.toNat + 32) else c

/-- Model of Python `str.lower()`. -/
def pyLower (s : String) : String :=
  String.mk (s.toList.map charLower)

/-- Model of Python `str.endswith(suffix)`. -/
def strEndsWith (s suffix : String) : Bool :=
  suffix.toList.isSuffixOf s.toList

/-- Model of Python `str.rstrip("/")`: drop trailing slashes. -/
def rstripSlash (s : String) : String :=
  String.mk ((s.toList.reverse.dropWhile (· == '/')).reverse)

/-- Model of Python `sep.join(parts)`. -/
def joinSep (sep : String) : List String → String
  | [] => ""
  | [x] => x
  | x :: y :: rest => x ++ sep ++ joinSep sep (y :: rest)

/-- JSON string escaping used by the serializers below (quote, backslash and
the common control characters; other characters pass through unchanged). -/
def escapeChar (c : Char) : String :=
  if c = '"' then "\\\""
  else if c = '\\' then "\\\\"
  else if c = '\n' then "\\n"
  else if c = '\t' then "\\t"
  else if c = '\r' then "\\r"
  else String.singleton c

/-- Escape a whole string for JSON output. -/
def escapeJson (s : String) : String :=
  String.join (s.toList.map escapeChar)

mutual

/-- Model of `json.dumps` on `PyVal` (default separators, dict keys in the
order they appear; `ensure_ascii` differences do not affect the claims). -/
def dumpVal : PyVal → String
  | .none => "null"
  | .bool true => "true"
  | .bool false => "false"
  | .int n => toString n
  | .str s => "\"" ++ escapeJson s ++ "\""
  | .list xs => "[" ++ dumpElems xs ++ "]"
  | .dict kvs => "\x7b" ++ dumpPairs kvs ++ "\x7d"

/-- Comma-joined serialization of list elements. -/
def dumpElems : List PyVal → String
  | [] => ""
  | [x] => dumpVal x
  | x :: y :: rest => dumpVal x ++ ", " ++ dumpElems (y :: rest)

/-- Comma-joined serialization of dict entries. -/
def dumpPairs : List (String × PyVal) → String
  | [] => ""
  | [(k, v)] => "\"" ++ escapeJson k ++ "\": " ++ dumpVal v
  | (k, v) :: y :: rest =>
      "\"" ++ escapeJson k ++ "\": " ++ dumpVal v ++ ", " ++ dumpPairs (y :: rest)

end

/-- Lexicographic code-point comparison of character lists (Python string
ordering, used by `sorted` and `sort_keys=True`). -/
def charListLe : List Char → List Char → Bool
  | [], _ => true
  | _ :: _, [] => false
  | a :: as, b :: bs =>
      if a.toNat < b.toNat then true
      else if b.toNat < a.toNat then false
      else charListLe as bs

/-- String comparison by code points. -/
def strLe (a b : String) : Bool := charListLe a.toList b.toList

/-- Insertion step for sorting dict entries by key (used to model
`json.dumps(..., sort_keys=True)`). -/
def insertByKey (x : String × PyVal) : List (String × PyVal) → List (String × PyVal)
  | [] => [x]
  | y :: ys => if strLe x.1 y.1 then x :: y :: ys else y :: insertByKey x ys

/-- Sort dict entries by key (insertion sort; Python dict keys are unique so
stability is irrelevant). -/
def sortPairsByKey (l : List (String × PyVal)) : List (String × PyVal) :=
  l.foldr insertByKey []

mutual

/-- Recursively sort every dict's keys inside a value, modelling the
`sort_keys=True` behaviour of `json.dumps`. -/
def sortVal : PyVal → PyVal
  | .none => .none
  | .bool b => .bool b
  | .int n => .int n
  | .str s => .str s
  | .list xs => .list (sortList xs)
  | .dict kvs => .dict (sortPairsByKey (sortPairs kvs))

/-- Pointwise `sortVal` over a list. -/
def sortList : List PyVal → List PyVal
  | [] => []
  | x :: xs => sortVal x :: sortList xs

/-- Pointwise `sortVal` over dict values. -/
def sortPairs : List (String × PyVal) → List (String × PyVal)
  | [] => []
  | (k, v) :: xs => (k, sortVal v) :: sortPairs xs

end

/-- Model of Python `str(v)` for the values the bridge passes through it.
Scalars follow CPython's `str`; for containers Python uses `repr` formatting,
approximated here by the JSON serialization (the claims never depend on the
exact container rendering, only on determinism). -/
def pyStr : PyVal → String
  | .none => "None"
  | .bool true => "True"
  | .bool false => "False"
  | .int n => toString n
  | .str s => s
  | .list xs => dumpVal (.list xs)
  | .dict kvs => dumpVal (.dict kvs)


/-! ## Payload normalization (`_memu_kwargs`, `_ensure_dirs`, base-url massage) -/

/-- Allow-list of `MemoryService` constructor kwargs, from `_memu_kwargs`. -/
def MEMU_KEYS : List String :=
  ["llm_profiles", "blob_config", "database_config", "memorize_config",
   "retrieve_config", "workflow_runner", "user_config"]

/-- Model of `_memu_kwargs`: keep only the allow-listed keys whose value is
present and not `None`, in the fixed allow-list order. -/
def memu_kwargs (payload : PyDict) : PyDict :=
  MEMU_KEYS.filterMap (fun k =>
    match alGet payload k with
    | some PyVal.none => Option.none
    | some v => some (k, v)
    | Option.none => Option.none)

/-- Model of `_ensure_dirs`: resolve the resources directory from
`blob_config.resources_dir`, then top-level `resources_dir`, then the default.
`Path(resources_dir)` on a truthy non-string raises `TypeError`. The
`mkdir` side effect is not modelled (it does not affect any claim). -/
def ensure_dirs (payload : PyDict) : Except PyExc String :=
  let bc := getOrDefault payload "blob_config" (PyVal.dict [])
  let fromBc : Option PyVal :=
    match bc with
    | PyVal.dict kvs => alGet kvs "resources_dir"
    | _ => Option.none
  let step1 : Option PyVal := fromBc.bind (fun v => if pyTruthy v then some v else Option.none)
  let step2 : Option PyVal :=
    match step1 with
    | some v => some v
    | Option.none =>
        (alGet payload "resources_dir").bind (fun v => if pyTruthy v then some v else Option.none)
  let rdir := step2.getD (PyVal.str "./data/resources")
  match rdir with
  | PyVal.str s => Except.ok s
  | _ => Except.error ⟨"TypeError", "argument should be a str or an os.PathLike object"⟩

/-- Model of `_normalize_openai_base_url`. -/
def normalize_openai_base_url (url : String) : String :=
  let u := pyStrip url
  if u = "" then u
  else
    let u := rstripSlash u
    if strEndsWith u "/v1" then u
    else if strEndsWith u "/api/v1" then u
    else u ++ "/v1"

/-- Massage one profile config (`for _, cfg in profiles.items()` body).
`(cfg.get("provider") or "").lower()` raises `AttributeError` when the
provider value is truthy but not a string. -/
def massage_profile (cfg : PyDict) : Except PyExc PyDict :=
  match getOrDefault cfg "provider" (PyVal.str "") with
  | PyVal.str prov =>
      let isOpenai : Bool := pyLower prov == "openai"
      let isSdk : Bool :=
        match getOrDefault cfg "client_backend" (PyVal.str "sdk") with
        | PyVal.str s => s == "sdk"
        | _ => false
      if isOpenai && isSdk then
        let bu := pyStr (getOrDefault cfg "base_url" (PyVal.str ""))
        Except.ok (alSet cfg "base_url" (PyVal.str (normalize_openai_base_url bu)))
      else Except.ok cfg
  | _ => Except.error ⟨"AttributeError", "object has no attribute lower"⟩

/-- Massage each profile in iteration (insertion) order; non-dict profile
values are skipped. -/
def massage_profiles : List (String × PyVal) → Except PyExc (List (String × PyVal))
  | [] => Except.ok []
  | (k, v) :: rest =>
      match v with
      | PyVal.dict cfg =>
          (match massage_profile cfg with
           | Except.error e => Except.error e
           | Except.ok cfg' =>
               match massage_profiles rest with
               | Except.error e => Except.error e
               | Except.ok rest' => Except.ok ((k, PyVal.dict cfg') :: rest'))
      | _ =>
          (match massage_profiles rest with
           | Except.error e => Except.error e
           | Except.ok rest' => Except.ok ((k, v) :: rest'))

/-- Model of `_massage_llm_profiles`: rewrite `base_url` of every
`provider=openai`, `client_backend=sdk` profile; no-op when `llm_profiles`
is not a dict. The Python version mutates `payload` in place; the model
returns the updated payload (on an exception the partially mutated dict is
unobservable, since the exception propagates out of the request). -/
def massage_llm_profiles (payload : PyDict) : Except PyExc PyDict :=
  match alGet payload "llm_profiles" with
  | some (PyVal.dict profiles) =>
      (match massage_profiles profiles with
       | Except.error e => Except.error e
       | Except.ok profiles' =>
           Except.ok (alSet payload "llm_profiles" (PyVal.dict profiles')))
  | _ => Except.ok payload

/-! ## Cache key and configuration fingerprint -/

/-- Model of `_service_key`. The `resolve` parameter models
`Path(...).resolve()` (filesystem-dependent canonicalization); any exception
in the fallback path is caught and yields `"default"`, which the model
reflects by mapping the `_ensure_dirs` failure there. -/
def service_key (resolve : String → String) (payload : PyDict) : String :=
  match alGet payload "service_key" with
  | some (PyVal.str s) =>
      if pyStrip s ≠ "" then pyStrip s
      else match ensure_dirs payload with
        | Except.ok d => resolve d
        | Except.error _ => "default"
  | _ =>
      match ensure_dirs payload with
      | Except.ok d => resolve d
      | Except.error _ => "default"

/-- Model of `_payload_digest`: the canonical string
`json.dumps(_memu_kwargs(payload), sort_keys=True, default=str)`. The source
hashes this string with SHA-1; SHA-1 being a fixed deterministic function,
equality of digests corresponds to equality of this canonical string (up to
hash collisions), so the model identifies the digest with its preimage. -/
def payload_digest (payload : PyDict) : String :=
  dumpVal (sortVal (PyVal.dict (memu_kwargs payload)))

/-! ## Message normalizer (`_normalize_conversation`) -/

/-- First string value among the keys `text`, `content`, `value` of a dict
(the dict branch of the inner `to_text`). -/
def dict_text (kvs : PyDict) : Option String :=
  match alGet kvs "text" with
  | some (PyVal.str s) => some s
  | _ =>
      match alGet kvs "content" with
      | some (PyVal.str s) => some s
      | _ =>
          match alGet kvs "value" with
          | some (PyVal.str s) => some s
          | _ => Option.none

/-- String parts collected from a list-valued content (the list branch of the
inner `to_text`): plain strings, and string `text` fields of dict elements. -/
def collect_parts : List PyVal → List String
  | [] => []
  | PyVal.str s :: rest => s :: collect_parts rest
  | PyVal.dict kvs :: rest =>
      (match alGet kvs "text" with
       | some (PyVal.str t) => t :: collect_parts rest
       | _ => collect_parts rest)
  | _ :: rest => collect_parts rest

/-- Model of the inner `to_text` helper of `_normalize_conversation`:
best-effort extraction of a plain string from arbitrary content. -/
def to_text (v : PyVal) : String :=
  match v with
  | PyVal.none => ""
  | PyVal.str s => s
  | PyVal.dict kvs =>
      (match dict_text kvs with
       | some s => s
       | Option.none => dumpVal (PyVal.dict kvs))
  | PyVal.list xs =>
      pyStrip (joinSep "\n" ((collect_parts xs).filter (· ≠ "")))
  | other => pyStr other

/-- Role coercion and speaker-name prefixing for one message (lines of the
`_normalize_conversation` loop after the drop checks): a role other than
`user`/`assistant` is coerced to `user`, prefixing the content with a
non-empty string speaker name when present. Returns the final
`(role, content)` pair. -/
def coerce_role_content (role content : String) (name : PyVal) : String × String :=
  if role ≠ "user" ∧ role ≠ "assistant" then
    -- ST sometimes uses "participant" for group chats
    match name with
    | PyVal.str n =>
        if pyStrip n ≠ "" then ("user", pyStrip n ++ ": " ++ content) else ("user", content)
    | _ => ("user", content)
  else (role, content)

/-- Build the normalized message dict `{"role", "content"}`, carrying
`created_at` over verbatim when the key is present on the input message. -/
def build_normalized (kvs : PyDict) (pair : String × String) : PyDict :=
  let base : PyDict := [("role", PyVal.str pair.1), ("content", PyVal.str pair.2)]
  match alGet kvs "created_at" with
  | some v => base ++ [("created_at", v)]
  | Option.none => base

/-- Model of one iteration of the `_normalize_conversation` loop: `ok none`
when the message is skipped/dropped, `ok (some nm)` with the normalized
message dict otherwise. `(m.get("role") or "").strip()` raises
`AttributeError` when the role value is truthy but not a string. -/
def normalize_message (m : PyVal) : Except PyExc (Option PyDict) :=
  match m with
  | PyVal.dict kvs =>
      match getOrDefault kvs "role" (PyVal.str "") with
      | PyVal.str roleRaw =>
          let role := roleRaw |> pyStrip |> pyLower
          if role = "system" ∨ role = "tool" ∨ role = "function" then Except.ok Option.none
          else
            let content := to_text ((alGet kvs "content").getD PyVal.none)
            if pyStrip content = "" then Except.ok Option.none
            else
              let name := pyOrV ((alGet kvs "name").getD PyVal.none)
                (pyOrV ((alGet kvs "speaker").getD PyVal.none) ((alGet kvs "author").getD PyVal.none))
              Except.ok (some (build_normalized kvs (coerce_role_content role content name)))
      | _ => Except.error ⟨"AttributeError", "object has no attribute strip"⟩
  | _ => Except.ok Option.none

/-- The `_normalize_conversation` loop over the message list, accumulating in
input order and propagating the first exception. -/
def normalize_msgs : List PyVal → Except PyExc (List PyDict)
  | [] => Except.ok []
  | m :: rest =>
      match normalize_message m with
      | Except.error e => Except.error e
      | Except.ok o =>
          match normalize_msgs rest with
          | Except.error e => Except.error e
          | Except.ok out =>
              Except.ok (match o with
                | some nm => nm :: out
                | Option.none => out)

/-- Model of `_normalize_conversation`: a non-list input yields `[]`. -/
def normalize_conversation (conversation : PyVal) : Except PyExc (List PyDict) :=
  match conversation with
  | PyVal.list ms => normalize_msgs ms
  | _ => Except.ok []


/-! ## Service cache (`_get_service`) -/

/-- Daemon-wide mutable state: `_SERVICES` (key to service instance) and
`_SERVICE_DIGEST` (key to config digest). Service instances are opaque
`memu.MemoryService` handles, modelled by allocation order: a construction
returns `nextId` and bumps it, so distinct constructions yield distinct
instances. (`_LOCKS` is modelled separately, in the concurrency section.) -/
structure SvcState where
  services : List (String × Nat)
  digests : List (String × String)
  nextId : Nat
  deriving DecidableEq, Repr

/-- Observable external effects of a request. -/
inductive Event where
  | construct
  | fileWrite (path : String)
  | memorizeCall (path : String)
  deriving DecidableEq, Repr

/-- The miss branch of `_get_service` (run under the per-key lock): massage
the profiles, ensure the directory, construct, then store the new entry while
replacing any previous one. `ctor` models the `MemoryService` constructor:
it may reject the forwarded kwargs with an exception, in which case nothing
is stored. -/
def rebuild_service (ctor : PyDict → Except PyExc Unit) (st : SvcState)
    (payload : PyDict) (key dig : String) :
    Except PyExc Nat × SvcState × List Event :=
  match massage_llm_profiles payload with
  | Except.error e => (Except.error e, st, [])
  | Except.ok payload' =>
      match ensure_dirs payload' with
      | Except.error e => (Except.error e, st, [])
      | Except.ok _ =>
          match ctor (memu_kwargs payload') with
          | Except.error e => (Except.error e, st, [])
          | Except.ok _ =>
              (Except.ok st.nextId,
               ⟨alSet st.services key st.nextId, alSet st.digests key dig, st.nextId + 1⟩,
               [Event.construct])

/-- The critical section of `_get_service` (the body of
`async with _LOCKS[key]`): return the cached instance when the key is
present with an unchanged digest, otherwise rebuild. -/
def get_service_crit (ctor : PyDict → Except PyExc Unit) (resolve : String → String)
    (st : SvcState) (payload : PyDict) :
    Except PyExc Nat × SvcState × List Event :=
  let key := service_key resolve payload
  let dig := payload_digest payload
  match alGet st.services key with
  | some svc =>
      if alGet st.digests key = some dig then (Except.ok svc, st, [])
      else rebuild_service ctor st payload key dig
  | Option.none => rebuild_service ctor st payload key dig

/-- Model of `_get_service` as executed by the (serial) daemon: the lock
acquisition always succeeds immediately, so the call is exactly its critical
section. The concurrency section below models the interleaved version. -/
def get_service (ctor : PyDict → Except PyExc Unit) (resolve : String → String)
    (st : SvcState) (payload : PyDict) :
    Except PyExc Nat × SvcState × List Event :=
  get_service_crit ctor resolve st payload

/-! ## Operations (`_op_memorize`, `_run`) -/

/-- Model of `_op_memorize`. Parameters beyond the payload model the
environment: `ctor`/`resolve` as in `get_service`, `memuOp svc path` the
external `svc.memorize(resource_url=path, ...)` call, `now` the integer
timestamp and `rand` the random hex suffix used in the resource file name.
The content digest in the file name is `sha1(json.dumps(normalized))[:12]`
in the source; the model uses the serialized content itself as the tag. -/
def op_memorize (ctor : PyDict → Except PyExc Unit) (resolve : String → String)
    (memuOp : Nat → String → Except PyExc PyVal) (now : Nat) (rand : String)
    (st : SvcState) (payload : PyDict) :
    Except PyExc PyVal × SvcState × List Event :=
  match ensure_dirs payload with
  | Except.error e => (Except.error e, st, [])
  | Except.ok base =>
      match get_service ctor resolve st payload with
      | (Except.error e, st', evs) => (Except.error e, st', evs)
      | (Except.ok svc, st', evs) =>
          let conversation := (alGet payload "conversation").getD PyVal.none
          match normalize_conversation conversation with
          | Except.error e => (Except.error e, st', evs)
          | Except.ok normalized =>
              if normalized.isEmpty then
                (Except.ok (PyVal.dict
                  [("ok", PyVal.bool false), ("op", PyVal.str "memorize"),
                   ("error", PyVal.str "payload.conversation must be a non-empty list (after normalization)")]),
                 st', evs)
              else
                let contentTag := dumpVal (PyVal.list (normalized.map PyVal.dict))
                let fname := "st_conversation_" ++ contentTag ++ "_" ++ toString now
                  ++ "_" ++ rand ++ ".json"
                let convoPath := base ++ "/" ++ fname
                let evs := evs ++ [Event.fileWrite convoPath]
                match memuOp svc convoPath with
                | Except.error e => (Except.error e, st', evs)
                | Except.ok result =>
                    (Except.ok (PyVal.dict
                      [("ok", PyVal.bool true), ("op", PyVal.str "memorize"), ("result", result)]),
                     st', evs ++ [Event.memorizeCall convoPath])

/-! ## Daemon loop (`_daemon_loop`) -/

/-- Outcome of one dispatched request (`await _run(op, payload)`): either a
returned value or a raised exception of any class, `BaseException` subclasses
such as `SystemExit` and `KeyboardInterrupt` included. -/
inductive RunOut where
  | ok (v : PyVal)
  | exc (e : PyExc)

/-- Error line written when the outer `except BaseException` fires
(`json.loads` raising): `ok` false and no `id` key. -/
def loopErrResp (e : PyExc) : PyVal :=
  PyVal.dict [("ok", PyVal.bool false), ("error", PyVal.str (e.name ++ ": " ++ e.msg))]

/-- Response for a parsed non-object request line. -/
def badRequestResp : PyVal :=
  PyVal.dict [("ok", PyVal.bool false), ("error", PyVal.str "Bad request: expected a JSON object")]

/-- Handling of one parsed JSON-object request line: extract `id`, `op` and
`payload`, dispatch, convert any raised exception (`BaseException` included)
into an `ok: false` response carrying `op`, then echo a non-`None` `id`. The
dispatch parameter `d` stands for `await _run(op, payload)` together with
everything it calls. -/
def handleRequest (d : PyVal → PyVal → RunOut) (kvs : PyDict) : PyVal :=
  let reqId := (alGet kvs "id").getD PyVal.none
  let op := (alGet kvs "op").getD PyVal.none
  let payload0 := getOrDefault kvs "payload" (PyVal.dict [])
  let payload : PyVal :=
    match payload0 with
    | PyVal.dict p => PyVal.dict p
    | _ => PyVal.dict []
  let res : PyDict :=
    match d op payload with
    | RunOut.ok (PyVal.dict rs) => rs
    | RunOut.ok other => [("ok", PyVal.bool true), ("result", other)]
    | RunOut.exc e =>
        [("ok", PyVal.bool false), ("error", PyVal.str (e.name ++ ": " ++ e.msg)), ("op", op)]
  let res :=
    match reqId with
    | PyVal.none => res
    | rid => alSet res "id" rid
  PyVal.dict res

/-- Response lines produced for one non-blank input line: parse it with
`loads` (modelling `json.loads`, which may raise), reject non-objects, and
otherwise dispatch. Exactly one response line is always written. -/
def processLine (loads : String → Except PyExc PyVal) (d : PyVal → PyVal → RunOut)
    (l : String) : PyVal :=
  match loads l with
  | Except.error e => loopErrResp e
  | Except.ok (PyVal.dict kvs) => handleRequest d kvs
  | Except.ok _ => badRequestResp

/-- Model of `_daemon_loop`: the input stream is the list of successive
`sys.stdin.readline()` results; the list ending (or an explicit empty read)
is end-of-stream, on which the loop returns 0. The result is the list of
response lines written to stdout. Blank lines are skipped without output. -/
def daemon_loop (loads : String → Except PyExc PyVal) (d : PyVal → PyVal → RunOut) :
    List String → List PyVal
  | [] => []
  | line :: rest =>
      if line = "" then []
      else
        let l := pyStrip line
        if l = "" then daemon_loop loads d rest
        else processLine loads d l :: daemon_loop loads d rest

/-! ## Concurrency model for `_get_service`

Two concurrent `_get_service` calls, `false` and `true`, with fixed payloads.
Under asyncio the only suspension point of `_get_service` is the
`async with _LOCKS[key]` acquisition; the critical section body contains no
`await`, so it runs atomically once the lock is acquired. A call is therefore
a two-step program: acquire the per-key lock (enabled only while no one holds
that key's lock), then atomically run the critical section and release. A
schedule is a list of call indices; scheduling a call whose step is not
enabled (or that is finished) leaves the configuration unchanged. -/

/-- Progress of one in-flight `_get_service` call. -/
inductive Phase where
  | waiting
  | locked
  | done
  deriving DecidableEq, Repr

/-- Configuration of the two-call interleaving: shared cache state, the
per-key lock table (`key` to current holder), and each call's phase. -/
structure CConf where
  st : SvcState
  locks : List (String × Bool)
  ph : Bool → Phase

/-- One scheduler step of call `i`. -/
def cstep (ctor : PyDict → Except PyExc Unit) (resolve : String → String)
    (pl : Bool → PyDict) (i : Bool) (c : CConf) : CConf :=
  let key := service_key resolve (pl i)
  match c.ph i with
  | Phase.waiting =>
      match alGet c.locks key with
      | Option.none =>
          { c with locks := alSet c.locks key i,
                   ph := fun j => if j = i then Phase.locked else c.ph j }
      | some _ => c
  | Phase.locked =>
      let r := get_service_crit ctor resolve c.st (pl i)
      { st := r.2.1,
        locks := c.locks.filter (fun kv => kv.1 ≠ key),
        ph := fun j => if j = i then Phase.done else c.ph j }
  | Phase.done => c

/-- Run a schedule (a list of call indices) from a configuration. -/
def crun (ctor : PyDict → Except PyExc Unit) (resolve : String → String)
    (pl : Bool → PyDict) : List Bool → CConf → CConf
  | [], c => c
  | i :: sched, c => crun ctor resolve pl sched (cstep ctor resolve pl i c)

/-- Initial configuration: both calls pending, no lock held. -/
def cinit (st : SvcState) : CConf :=
  ⟨st, [], fun _ => Phase.waiting⟩

/-! ## Association-list lemmas -/

theorem alGet_alSet_self {α : Type} (l : List (String × α)) (k : String) (v : α) :
    alGet (alSet l k v) k = some v := by
  induction l with
  | nil => simp [alSet, alGet]
  | cons hd tl ih =>
      obtain ⟨k', v'⟩ := hd
      by_cases h : k' = k
      · simp [alSet, alGet, h]
      · simp [alSet, alGet, h, ih]

theorem alGet_alSet_ne {α : Type} (l : List (String × α)) {k k' : String}
    (h : k' ≠ k) (v : α) : alGet (alSet l k v) k' = alGet l k' := by
  induction l with
  | nil => simp [alSet, alGet, Ne.symm h]
  | cons hd tl ih =>
      obtain ⟨k₀, v₀⟩ := hd
      by_cases h₀ : k₀ = k
      · subst h₀
        simp [alSet, alGet, h, Ne.symm h]
      · by_cases h₁ : k₀ = k'
        · simp [alSet, alGet, h₀, h₁, h]
        · simp [alSet, alGet, h₀, h₁, h, ih]

theorem alGet_alSet_or {α : Type} (l : List (String × α)) (k k' : String) (v w : α)
    (h : alGet (alSet l k v) k' = some w) :
    (k' = k ∧ w = v) ∨ alGet l k' = some w := by
  by_cases hk : k' = k
  · subst hk
    rw [alGet_alSet_self] at h
    exact Or.inl ⟨rfl, (Option.some.inj h).symm⟩
  · rw [alGet_alSet_ne l hk] at h
    exact Or.inr h

theorem mem_keys_alSet {α : Type} (l : List (String × α)) (k : String) (v : α)
    (k'' : String) (h : k'' ∈ (alSet l k v).map Prod.fst) :
    k'' = k ∨ k'' ∈ l.map Prod.fst := by
  induction l with
  | nil =>
      simp [alSet] at h
      exact Or.inl h
  | cons hd tl ih =>
      obtain ⟨k₀, v₀⟩ := hd
      by_cases h₀ : k₀ = k
      · subst h₀
        rw [alSet] at h
        simp only [if_pos rfl, List.map_cons] at h
        rcases List.mem_cons.mp h with h | h
        · exact Or.inl h
        · exact Or.inr (List.mem_cons_of_mem _ h)
      · rw [alSet] at h
        simp only [if_neg h₀, List.map_cons] at h
        rcases List.mem_cons.mp h with h | h
        · exact Or.inr (by simp [h])
        · rcases ih h with h' | h'
          · exact Or.inl h'
          · exact Or.inr (List.mem_cons_of_mem _ h')

theorem nodup_keys_alSet {α : Type} (l : List (String × α)) (k : String) (v : α)
    (h : (l.map Prod.fst).Nodup) : ((alSet l k v).map Prod.fst).Nodup := by
  induction l with
  | nil => simp [alSet]
  | cons hd tl ih =>
      obtain ⟨k₀, v₀⟩ := hd
      rw [List.map_cons, List.nodup_cons] at h
      by_cases h₀ : k₀ = k
      · subst h₀
        rw [alSet, if_pos rfl, List.map_cons, List.nodup_cons]
        exact h
      · rw [alSet, if_neg h₀]
        simp only [List.map_cons, List.nodup_cons]
        refine ⟨fun hmem => ?_, ih h.2⟩
        rcases mem_keys_alSet tl k v k₀ hmem with h' | h'
        · exact h₀ h'
        · exact h.1 h'

theorem alGet_mem {α : Type} (l : List (String × α)) (k : String) (v : α)
    (h : alGet l k = some v) : (k, v) ∈ l := by
  induction l with
  | nil => simp [alGet] at h
  | cons hd tl ih =>
      obtain ⟨k₀, v₀⟩ := hd
      by_cases h₀ : k₀ = k
      · subst h₀
        rw [alGet, if_pos rfl] at h
        cases h
        exact List.mem_cons_self _ _
      · rw [alGet, if_neg h₀] at h
        exact List.mem_cons_of_mem _ (ih h)

/-! ## String-strip lemmas -/

theorem pyStrip_eq_empty (s : String)
    (h : pyStrip s = "") : ∀ c ∈ s.toList, isPyWs c = true := by
  intro c hc
  unfold pyStrip at h
  have hmk : (((s.toList.dropWhile isPyWs).reverse.dropWhile isPyWs).reverse) = ([] : List Char) := by
    have := congrArg String.toList h
    simpa using this
  rw [List.reverse_eq_nil_iff] at hmk
  rw [List.dropWhile_eq_nil_iff] at hmk
  have hall : ∀ x ∈ s.toList.dropWhile isPyWs, isPyWs x := by
    intro x hx
    exact hmk x (List.mem_reverse.mpr hx)
  have hsplit : c ∈ s.toList.takeWhile isPyWs ++ s.toList.dropWhile isPyWs := by
    rw [List.takeWhile_append_dropWhile]
    exact hc
  rcases List.mem_append.mp hsplit with h' | h'
  · exact List.mem_takeWhile_imp h'
  · exact hall c h'

theorem pyStrip_ne_empty_of_mem {s : String} {c : Char}
    (hc : c ∈ s.toList) (hw : isPyWs c = false) : pyStrip s ≠ "" := by
  intro h
  rw [pyStrip_eq_empty s h c hc] at hw
  simp at hw

/-! ## Properties of the message normalizer -/


/-! ## Properties of the message normalizer -/

theorem coerce_role_content_fst (role content : String) (name : PyVal) :
    (coerce_role_content role content name).1 = "user" ∨
    (coerce_role_content role content name).1 = role := by
  unfold coerce_role_content
  split
  · split
    · split
      · exact Or.inl rfl
      · exact Or.inl rfl
    · exact Or.inl rfl
  · exact Or.inr rfl

theorem coerce_role_content_fst_canonical (role content : String) (name : PyVal)
    (h : ¬(role ≠ "user" ∧ role ≠ "assistant") → role = "user" ∨ role = "assistant") :
    (coerce_role_content role content name).1 = "user" ∨
    (coerce_role_content role content name).1 = "assistant" := by
  unfold coerce_role_content
  split
  · split
    · split
      · exact Or.inl rfl
      · exact Or.inl rfl
    · exact Or.inl rfl
  · rcases h (by assumption) with h' | h'
    · exact Or.inl h'
    · exact Or.inr h'

theorem coerce_role_content_snd (role content : String) (name : PyVal)
    (hc : pyStrip content ≠ "") :
    pyStrip (coerce_role_content role content name).2 ≠ "" := by
  unfold coerce_role_content
  split
  · split
    · split
      case isTrue n hn =>
        apply pyStrip_ne_empty_of_mem (c := ':')
        · show ':' ∈ (pyStrip n ++ ": " ++ content).data
          rw [String.data_append, String.data_append]
          refine List.mem_append.mpr (Or.inl (List.mem_append.mpr (Or.inr ?_)))
          simp [String.data]
        · rfl
      case isFalse => exact hc
    · exact hc
  · exact hc

theorem build_normalized_role (kvs : PyDict) (pair : String × String) :
    alGet (build_normalized kvs pair) "role" = some (PyVal.str pair.1) := by
  unfold build_normalized
  split <;> rfl

theorem build_normalized_content (kvs : PyDict) (pair : String × String) :
    alGet (build_normalized kvs pair) "content" = some (PyVal.str pair.2) := by
  unfold build_normalized
  split <;> rfl

theorem normalize_message_ok_props (m : PyVal) (nm : PyDict)
    (h : normalize_message m = Except.ok (some nm)) :
    (alGet nm "role" = some (PyVal.str "user") ∨ alGet nm "role" = some (PyVal.str "assistant")) ∧
    ∃ c, alGet nm "content" = some (PyVal.str c) ∧ pyStrip c ≠ "" := by
  cases m with
  | dict kvs =>
      rcases hg : getOrDefault kvs "role" (PyVal.str "") with _ | b | n0 | roleRaw | xs0 | g0
      case str =>
        simp only [normalize_message, hg] at h
        by_cases hr : (pyLower (pyStrip roleRaw) = "system" ∨ pyLower (pyStrip roleRaw) = "tool"
            ∨ pyLower (pyStrip roleRaw) = "function")
        · rw [if_pos hr] at h
          exact absurd h (by simp)
        · rw [if_neg hr] at h
          by_cases hc : pyStrip (to_text ((alGet kvs "content").getD PyVal.none)) = ""
          · rw [if_pos hc] at h
            exact absurd h (by simp)
          · rw [if_neg hc] at h
            simp only [Except.ok.injEq, Option.some.injEq] at h
            subst h
            constructor
            · rw [build_normalized_role]
              have hcanon := coerce_role_content_fst_canonical (pyLower (pyStrip roleRaw))
                (to_text ((alGet kvs "content").getD PyVal.none))
                (pyOrV ((alGet kvs "name").getD PyVal.none)
                  (pyOrV ((alGet kvs "speaker").getD PyVal.none) ((alGet kvs "author").getD PyVal.none)))
                (by
                  intro hne
                  rcases not_and_or.mp hne with h' | h'
                  · exact Or.inl (not_ne_iff.mp h')
                  · exact Or.inr (not_ne_iff.mp h'))
              rcases hcanon with h' | h'
              · exact Or.inl (by rw [h'])
              · exact Or.inr (by rw [h'])
            · refine ⟨_, build_normalized_content _ _, ?_⟩
              exact coerce_role_content_snd _ _ _ hc
      all_goals simp [normalize_message, hg] at h
  | none => exact absurd h (by simp [normalize_message])
  | bool b => exact absurd h (by simp [normalize_message])
  | int n => exact absurd h (by simp [normalize_message])
  | str s => exact absurd h (by simp [normalize_message])
  | list xs => exact absurd h (by simp [normalize_message])

theorem normalize_message_drops_role (kvs : PyDict) (roleRaw : String)
    (hg : getOrDefault kvs "role" (PyVal.str "") = PyVal.str roleRaw)
    (hr : pyLower (pyStrip roleRaw) = "system" ∨ pyLower (pyStrip roleRaw) = "tool"
      ∨ pyLower (pyStrip roleRaw) = "function") :
    normalize_message (PyVal.dict kvs) = Except.ok Option.none := by
  simp only [normalize_message, hg]
  rw [if_pos hr]

theorem normalize_msgs_eq_filterMap (xs : List PyVal) (out : List PyDict)
    (h : normalize_msgs xs = Except.ok out) :
    out = xs.filterMap (fun m => ((normalize_message m).toOption).join) := by
  induction xs generalizing out with
  | nil =>
      rw [normalize_msgs] at h
      cases h
      rfl
  | cons m rest ih =>
      rw [normalize_msgs] at h
      cases hm : normalize_message m with
      | error e =>
          rw [hm] at h
          exact absurd h (by simp)
      | ok o =>
          rw [hm] at h
          cases hr : normalize_msgs rest with
          | error e =>
              rw [hr] at h
              exact absurd h (by simp)
          | ok out' =>
              rw [hr] at h
              have h' := Except.ok.inj h
              rw [List.filterMap_cons]
              cases o with
              | none =>
                  have hf : ((normalize_message m).toOption).join = Option.none := by
                    rw [hm]; rfl
                  have h'' : out' = out := h'
                  simp only [hf]
                  rw [← h'', ih out' hr]
              | some nm =>
                  have hf : ((normalize_message m).toOption).join = some nm := by
                    rw [hm]; rfl
                  have h'' : nm :: out' = out := h'
                  simp only [hf]
                  rw [← h'', ih out' hr]

theorem mem_normalize_msgs (xs : List PyVal) (out : List PyDict) (nm : PyDict)
    (h : normalize_msgs xs = Except.ok out) (hmem : nm ∈ out) :
    ∃ m ∈ xs, normalize_message m = Except.ok (some nm) := by
  induction xs generalizing out with
  | nil =>
      rw [normalize_msgs] at h
      cases h
      simp at hmem
  | cons m rest ih =>
      rw [normalize_msgs] at h
      cases hm : normalize_message m with
      | error e =>
          rw [hm] at h
          exact absurd h (by simp)
      | ok o =>
          rw [hm] at h
          cases hr : normalize_msgs rest with
          | error e =>
              rw [hr] at h
              exact absurd h (by simp)
          | ok out' =>
              rw [hr] at h
              have h' := Except.ok.inj h
              cases o with
              | none =>
                  have h'' : out' = out := h'
                  subst h''
                  rcases ih out' hr hmem with ⟨m', hm', hprop⟩
                  exact ⟨m', List.mem_cons_of_mem _ hm', hprop⟩
              | some nm0 =>
                  have h'' : nm0 :: out' = out := h'
                  subst h''
                  rcases List.mem_cons.mp hmem with hx | hx
                  · subst hx
                    exact ⟨m, List.mem_cons_self _ _, hm⟩
                  · rcases ih out' hr hx with ⟨m', hm', hprop⟩
                    exact ⟨m', List.mem_cons_of_mem _ hm', hprop⟩

/-- C7 (amended): whenever `_normalize_conversation` returns (rather than
raising), its result is a finite list in which every element's role is exactly
`"user"` or `"assistant"`, no element has empty trimmed content, every
system/tool/function-role input message is dropped, the output is the
order-preserving filter-map of the input list, and a non-list input yields
the empty list. (The claim's "never raises" clause is refuted separately:
a truthy non-string `role` value raises `AttributeError`.) -/
theorem normalize_conversation_canonical (v : PyVal) (out : List PyDict)
    (h : normalize_conversation v = Except.ok out) :
    (∀ nm ∈ out, alGet nm "role" = some (PyVal.str "user") ∨
       alGet nm "role" = some (PyVal.str "assistant")) ∧
    (∀ nm ∈ out, ∃ c, alGet nm "content" = some (PyVal.str c) ∧ pyStrip c ≠ "") ∧
    (∀ xs, v = PyVal.list xs →
       out = xs.filterMap (fun m => ((normalize_message m).toOption).join)) ∧
    (∀ kvs roleRaw, getOrDefault kvs "role" (PyVal.str "") = PyVal.str roleRaw →
       (pyLower (pyStrip roleRaw) = "system" ∨ pyLower (pyStrip roleRaw) = "tool" ∨
         pyLower (pyStrip roleRaw) = "function") →
       normalize_message (PyVal.dict kvs) = Except.ok Option.none) ∧
    ((∀ xs, v ≠ PyVal.list xs) → out = []) := by
  by_cases hv : ∃ xs, v = PyVal.list xs
  · obtain ⟨xs, rfl⟩ := hv
    rw [normalize_conversation] at h
    refine ⟨?_, ?_, ?_, ?_, ?_⟩
    · intro nm hmem
      rcases mem_normalize_msgs xs out nm h hmem with ⟨m, _, hprop⟩
      exact (normalize_message_ok_props m nm hprop).1
    · intro nm hmem
      rcases mem_normalize_msgs xs out nm h hmem with ⟨m, _, hprop⟩
      exact (normalize_message_ok_props m nm hprop).2
    · intro xs' hx
      injection hx with hx'
      subst hx'
      exact normalize_msgs_eq_filterMap xs out h
    · exact fun kvs roleRaw hg hr => normalize_message_drops_role kvs roleRaw hg hr
    · intro hnl
      exact absurd rfl (hnl xs)
  · have hok : normalize_conversation v = Except.ok [] := by
      cases v
      case list xs => exact absurd ⟨xs, rfl⟩ hv
      all_goals rfl
    rw [hok] at h
    have h0 : ([] : List PyDict) = out := Except.ok.inj h
    subst h0
    refine ⟨by simp, by simp, ?_, ?_, fun _ => rfl⟩
    · intro xs hx
      exact absurd ⟨xs, hx⟩ hv
    · exact fun kvs roleRaw hg hr => normalize_message_drops_role kvs roleRaw hg hr

/-- C7 counterexample to the "never raises" clause: a message whose `role`
field is the truthy non-string `5` makes `(m.get("role") or "").strip()`
raise `AttributeError`. -/
theorem normalize_conversation_raises :
    normalize_conversation
      (PyVal.list [PyVal.dict [("role", PyVal.int 5), ("content", PyVal.str "hi")]]) =
    Except.error ⟨"AttributeError", "object has no attribute strip"⟩ := rfl

/-- Witness instantiating `normalize_conversation_canonical` on a concrete
one-message conversation. -/
theorem normalize_conversation_canonical_witness :
    (∀ nm ∈ ([[("role", PyVal.str "user"), ("content", PyVal.str "hi")]] : List PyDict),
       alGet nm "role" = some (PyVal.str "user") ∨
       alGet nm "role" = some (PyVal.str "assistant")) ∧
    (∀ nm ∈ ([[("role", PyVal.str "user"), ("content", PyVal.str "hi")]] : List PyDict),
       ∃ c, alGet nm "content" = some (PyVal.str c) ∧ pyStrip c ≠ "") ∧
    (∀ xs, PyVal.list [PyVal.dict [("role", PyVal.str "user"), ("content", PyVal.str "hi")]]
         = PyVal.list xs →
       ([[("role", PyVal.str "user"), ("content", PyVal.str "hi")]] : List PyDict)
         = xs.filterMap (fun m => ((normalize_message m).toOption).join)) ∧
    (∀ kvs roleRaw, getOrDefault kvs "role" (PyVal.str "") = PyVal.str roleRaw →
       (pyLower (pyStrip roleRaw) = "system" ∨ pyLower (pyStrip roleRaw) = "tool" ∨
         pyLower (pyStrip roleRaw) = "function") →
       normalize_message (PyVal.dict kvs) = Except.ok Option.none) ∧
    ((∀ xs, PyVal.list [PyVal.dict [("role", PyVal.str "user"), ("content", PyVal.str "hi")]]
         ≠ PyVal.list xs) →
       ([[("role", PyVal.str "user"), ("content", PyVal.str "hi")]] : List PyDict) = []) :=
  normalize_conversation_canonical
    (PyVal.list [PyVal.dict [("role", PyVal.str "user"), ("content", PyVal.str "hi")]])
    [[("role", PyVal.str "user"), ("content", PyVal.str "hi")]] rfl

/-! ## Service-cache lemmas -/

theorem get_service_hit (ctor : PyDict → Except PyExc Unit) (resolve : String → String)
    (st : SvcState) (p : PyDict) (svc : Nat)
    (hsv : alGet st.services (service_key resolve p) = some svc)
    (hdg : alGet st.digests (service_key resolve p) = some (payload_digest p)) :
    get_service ctor resolve st p = (Except.ok svc, st, []) := by
  simp only [get_service, get_service_crit, hsv]
  rw [if_pos hdg]

theorem get_service_miss (ctor : PyDict → Except PyExc Unit) (resolve : String → String)
    (st : SvcState) (p : PyDict)
    (hmiss : alGet st.services (service_key resolve p) = Option.none ∨
             alGet st.digests (service_key resolve p) ≠ some (payload_digest p)) :
    get_service ctor resolve st p =
      rebuild_service ctor st p (service_key resolve p) (payload_digest p) := by
  rcases hsv : alGet st.services (service_key resolve p) with _ | svc
  · simp only [get_service, get_service_crit, hsv]
  · rcases hmiss with hmiss | hmiss
    · rw [hsv] at hmiss
      cases hmiss
    · simp only [get_service, get_service_crit, hsv]
      rw [if_neg hmiss]

theorem rebuild_service_shape (ctor : PyDict → Except PyExc Unit) (st : SvcState)
    (p : PyDict) (key dig : String) :
    (∃ e, rebuild_service ctor st p key dig = (Except.error e, st, [])) ∨
    rebuild_service ctor st p key dig =
      (Except.ok st.nextId,
       ⟨alSet st.services key st.nextId, alSet st.digests key dig, st.nextId + 1⟩,
       [Event.construct]) := by
  unfold rebuild_service
  split
  · exact Or.inl ⟨_, rfl⟩
  · split
    · exact Or.inl ⟨_, rfl⟩
    · split
      · exact Or.inl ⟨_, rfl⟩
      · exact Or.inr rfl

theorem rebuild_service_ctor_error (ctor : PyDict → Except PyExc Unit) (st : SvcState)
    (p p' : PyDict) (key dig d : String) (e : PyExc)
    (hm : massage_llm_profiles p = Except.ok p')
    (hd : ensure_dirs p' = Except.ok d)
    (hc : ctor (memu_kwargs p') = Except.error e) :
    rebuild_service ctor st p key dig = (Except.error e, st, []) := by
  unfold rebuild_service
  simp only [hm, hd, hc]

theorem get_service_ok_state (ctor : PyDict → Except PyExc Unit) (resolve : String → String)
    (st : SvcState) (p : PyDict) (svc : Nat) (st' : SvcState) (evs : List Event)
    (h : get_service ctor resolve st p = (Except.ok svc, st', evs)) :
    alGet st'.services (service_key resolve p) = some svc ∧
    alGet st'.digests (service_key resolve p) = some (payload_digest p) := by
  by_cases hhit : (∃ s, alGet st.services (service_key resolve p) = some s) ∧
      alGet st.digests (service_key resolve p) = some (payload_digest p)
  · obtain ⟨⟨s, hs⟩, hdg⟩ := hhit
    rw [get_service_hit ctor resolve st p s hs hdg] at h
    simp only [Prod.mk.injEq] at h
    obtain ⟨h1, h2, h3⟩ := h
    cases h1
    subst h2
    exact ⟨hs, hdg⟩
  · have hmiss : alGet st.services (service_key resolve p) = Option.none ∨
        alGet st.digests (service_key resolve p) ≠ some (payload_digest p) := by
      by_cases hdg : alGet st.digests (service_key resolve p) = some (payload_digest p)
      · left
        rcases hsv : alGet st.services (service_key resolve p) with _ | s
        · rfl
        · exact absurd ⟨⟨s, hsv⟩, hdg⟩ hhit
      · exact Or.inr hdg
    rw [get_service_miss ctor resolve st p hmiss] at h
    rcases rebuild_service_shape ctor st p (service_key resolve p) (payload_digest p)
        with ⟨e, heq⟩ | heq
    · rw [heq] at h
      simp at h
    · rw [heq] at h
      simp only [Prod.mk.injEq] at h
      obtain ⟨h1, h2, h3⟩ := h
      cases h1
      subst h2
      exact ⟨alGet_alSet_self _ _ _, alGet_alSet_self _ _ _⟩

theorem rebuild_service_ok (ctor : PyDict → Except PyExc Unit) (st : SvcState)
    (p p' : PyDict) (key dig d : String)
    (hm : massage_llm_profiles p = Except.ok p')
    (hd : ensure_dirs p' = Except.ok d)
    (hc : ctor (memu_kwargs p') = Except.ok ()) :
    rebuild_service ctor st p key dig =
      (Except.ok st.nextId,
       ⟨alSet st.services key st.nextId, alSet st.digests key dig, st.nextId + 1⟩,
       [Event.construct]) := by
  unfold rebuild_service
  simp only [hm, hd, hc]

theorem get_service_state_shape (ctor : PyDict → Except PyExc Unit) (resolve : String → String)
    (st : SvcState) (p : PyDict) (r : Except PyExc Nat) (st' : SvcState) (evs : List Event)
    (h : get_service ctor resolve st p = (r, st', evs)) :
    st' = st ∨
    st' = ⟨alSet st.services (service_key resolve p) st.nextId,
           alSet st.digests (service_key resolve p) (payload_digest p), st.nextId + 1⟩ := by
  by_cases hhit : (∃ s, alGet st.services (service_key resolve p) = some s) ∧
      alGet st.digests (service_key resolve p) = some (payload_digest p)
  · obtain ⟨⟨s, hs⟩, hdg⟩ := hhit
    rw [get_service_hit ctor resolve st p s hs hdg] at h
    simp only [Prod.mk.injEq] at h
    exact Or.inl h.2.1.symm
  · have hmiss : alGet st.services (service_key resolve p) = Option.none ∨
        alGet st.digests (service_key resolve p) ≠ some (payload_digest p) := by
      by_cases hdg : alGet st.digests (service_key resolve p) = some (payload_digest p)
      · left
        rcases hsv : alGet st.services (service_key resolve p) with _ | s
        · rfl
        · exact absurd ⟨⟨s, hsv⟩, hdg⟩ hhit
      · exact Or.inr hdg
    rw [get_service_miss ctor resolve st p hmiss] at h
    rcases rebuild_service_shape ctor st p (service_key resolve p) (payload_digest p)
        with ⟨e, heq⟩ | heq
    · rw [heq] at h
      simp only [Prod.mk.injEq] at h
      exact Or.inl h.2.1.symm
    · rw [heq] at h
      simp only [Prod.mk.injEq] at h
      exact Or.inr h.2.1.symm

/-- C4: after a successful `_get_service` call, an identical payload (same
key, same recognized configuration, hence the same fingerprint) returns the
identical cached instance, leaves the state untouched and performs no
construction (empty event list). -/
theorem get_service_cached_reuse (ctor : PyDict → Except PyExc Unit) (resolve : String → String)
    (st : SvcState) (p : PyDict) (svc : Nat) (st' : SvcState) (evs : List Event)
    (h : get_service ctor resolve st p = (Except.ok svc, st', evs)) :
    get_service ctor resolve st' p = (Except.ok svc, st', []) := by
  obtain ⟨h1, h2⟩ := get_service_ok_state ctor resolve st p svc st' evs h
  exact get_service_hit ctor resolve st' p svc h1 h2

/-- Witness instantiating `get_service_cached_reuse`: a first call from the
empty cache constructs instance 0; the repeated identical call returns it
unchanged with no construction event. -/
theorem get_service_cached_reuse_witness :
    get_service (fun _ => Except.ok ()) id
      ⟨[("k", 0)], [("k", payload_digest [("service_key", PyVal.str "k")])], 1⟩
      [("service_key", PyVal.str "k")] =
    (Except.ok 0,
     ⟨[("k", 0)], [("k", payload_digest [("service_key", PyVal.str "k")])], 1⟩, []) :=
  get_service_cached_reuse (fun _ => Except.ok ()) id ⟨[], [], 0⟩
    [("service_key", PyVal.str "k")] 0
    ⟨[("k", 0)], [("k", payload_digest [("service_key", PyVal.str "k")])], 1⟩
    [Event.construct] (by rfl)

/-- C6: when the `MemoryService` constructor raises during `_get_service`
(on the construct path), the exception propagates, the service cache and
digest table are returned unchanged, and a subsequent request whose
constructor accepts the configuration can retry and construct under the same
key. -/
theorem get_service_ctor_error_no_poison (ctor : PyDict → Except PyExc Unit)
    (resolve : String → String) (st : SvcState) (p p' : PyDict) (d : String) (e : PyExc)
    (hmiss : alGet st.services (service_key resolve p) = Option.none ∨
             alGet st.digests (service_key resolve p) ≠ some (payload_digest p))
    (hm : massage_llm_profiles p = Except.ok p')
    (hd : ensure_dirs p' = Except.ok d)
    (hc : ctor (memu_kwargs p') = Except.error e) :
    get_service ctor resolve st p = (Except.error e, st, []) ∧
    (∀ ctor2 : PyDict → Except PyExc Unit, ctor2 (memu_kwargs p') = Except.ok () →
       get_service ctor2 resolve st p =
         (Except.ok st.nextId,
          ⟨alSet st.services (service_key resolve p) st.nextId,
           alSet st.digests (service_key resolve p) (payload_digest p), st.nextId + 1⟩,
          [Event.construct])) := by
  constructor
  · rw [get_service_miss ctor resolve st p hmiss]
    exact rebuild_service_ctor_error ctor st p p' _ _ d e hm hd hc
  · intro ctor2 hc2
    rw [get_service_miss ctor2 resolve st p hmiss]
    exact rebuild_service_ok ctor2 st p p' _ _ d hm hd hc2

/-- Witness instantiating `get_service_ctor_error_no_poison` on the empty
cache with a rejecting constructor. -/
theorem get_service_ctor_error_no_poison_witness :
    get_service (fun _ => Except.error ⟨"ValueError", "bad config"⟩) id
      ⟨[], [], 0⟩ [("service_key", PyVal.str "k")] =
      (Except.error ⟨"ValueError", "bad config"⟩, ⟨[], [], 0⟩, []) ∧
    (∀ ctor2 : PyDict → Except PyExc Unit,
       ctor2 (memu_kwargs [("service_key", PyVal.str "k")]) = Except.ok () →
       get_service ctor2 id ⟨[], [], 0⟩ [("service_key", PyVal.str "k")] =
         (Except.ok 0,
          ⟨alSet ([] : List (String × Nat)) (service_key id [("service_key", PyVal.str "k")]) 0,
           alSet ([] : List (String × String)) (service_key id [("service_key", PyVal.str "k")])
             (payload_digest [("service_key", PyVal.str "k")]), 1⟩,
          [Event.construct])) :=
  get_service_ctor_error_no_poison (fun _ => Except.error ⟨"ValueError", "bad config"⟩) id
    ⟨[], [], 0⟩ [("service_key", PyVal.str "k")] [("service_key", PyVal.str "k")]
    "./data/resources" ⟨"ValueError", "bad config"⟩
    (Or.inl rfl) rfl rfl rfl

/-- C5: the cache keeps at most one live entry per key (`alSet` replaces in
place, so distinct-key lists stay distinct-key, for any call), and a call
under an existing key whose fingerprint differs from the stored one
constructs a fresh instance that replaces the old entry, after which the old
instance is unreachable from the cache. -/
theorem get_service_replaces_entry (ctor : PyDict → Except PyExc Unit)
    (resolve : String → String) (st : SvcState) (p : PyDict) (old svc : Nat)
    (st' : SvcState) (evs : List Event)
    (hold : alGet st.services (service_key resolve p) = some old)
    (hdig : alGet st.digests (service_key resolve p) ≠ some (payload_digest p))
    (hbound : ∀ k v, alGet st.services k = some v → v < st.nextId)
    (honly : ∀ k, k ≠ service_key resolve p → alGet st.services k ≠ some old)
    (hrun : get_service ctor resolve st p = (Except.ok svc, st', evs)) :
    (∀ st2 p2 r2 st2' evs2, (st2.services.map Prod.fst).Nodup →
       get_service ctor resolve st2 p2 = (r2, st2', evs2) →
       (st2'.services.map Prod.fst).Nodup) ∧
    svc = st.nextId ∧
    alGet st'.services (service_key resolve p) = some svc ∧
    old ≠ svc ∧
    (∀ k, alGet st'.services k ≠ some old) ∧
    evs = [Event.construct] := by
  have hpres : ∀ st2 p2 r2 st2' evs2, (st2.services.map Prod.fst).Nodup →
      get_service ctor resolve st2 p2 = (r2, st2', evs2) →
      (st2'.services.map Prod.fst).Nodup := by
    intro st2 p2 r2 st2' evs2 hnd h2
    rcases get_service_state_shape ctor resolve st2 p2 r2 st2' evs2 h2 with hsh | hsh
    · rw [hsh]
      exact hnd
    · rw [hsh]
      exact nodup_keys_alSet _ _ _ hnd
  rw [get_service_miss ctor resolve st p (Or.inr hdig)] at hrun
  rcases rebuild_service_shape ctor st p (service_key resolve p) (payload_digest p)
      with ⟨e, heq⟩ | heq
  · rw [heq] at hrun
    simp at hrun
  · rw [heq] at hrun
    simp only [Prod.mk.injEq] at hrun
    obtain ⟨h1, h2, h3⟩ := hrun
    cases h1
    subst h2
    subst h3
    have hne : old ≠ st.nextId :=
      Nat.ne_of_lt (hbound (service_key resolve p) old hold)
    refine ⟨hpres, rfl, alGet_alSet_self _ _ _, hne, ?_, rfl⟩
    intro k hk
    by_cases hkey : k = service_key resolve p
    · subst hkey
      rw [alGet_alSet_self] at hk
      exact hne.symm (Option.some.inj hk)
    · rw [show (⟨alSet st.services (service_key resolve p) st.nextId,
          alSet st.digests (service_key resolve p) (payload_digest p),
          st.nextId + 1⟩ : SvcState).services =
          alSet st.services (service_key resolve p) st.nextId from rfl] at hk
      rw [alGet_alSet_ne st.services hkey] at hk
      exact honly k hkey hk

/-- Witness instantiating `get_service_replaces_entry`: key `"k"` holds
instance 0 with a stale digest; the call constructs instance 1 replacing it. -/
theorem get_service_replaces_entry_witness :
    (∀ st2 p2 r2 st2' evs2, (st2.services.map Prod.fst).Nodup →
       get_service (fun _ => Except.ok ()) id st2 p2 = (r2, st2', evs2) →
       (st2'.services.map Prod.fst).Nodup) ∧
    (1 : Nat) = (1 : Nat) ∧
    alGet (alSet [("k", 0)] (service_key id [("service_key", PyVal.str "k")]) 1)
      (service_key id [("service_key", PyVal.str "k")]) = some 1 ∧
    (0 : Nat) ≠ (1 : Nat) ∧
    (∀ k, alGet (⟨alSet [("k", 0)] (service_key id [("service_key", PyVal.str "k")]) 1,
        alSet [("k", "stale")] (service_key id [("service_key", PyVal.str "k")])
          (payload_digest [("service_key", PyVal.str "k")]), 2⟩ : SvcState).services k ≠ some 0) ∧
    ([Event.construct] : List Event) = [Event.construct] := by
  have happ := get_service_replaces_entry (fun _ => Except.ok ()) id
    ⟨[("k", 0)], [("k", "stale")], 1⟩ [("service_key", PyVal.str "k")] 0 1
    ⟨alSet [("k", 0)] (service_key id [("service_key", PyVal.str "k")]) 1,
     alSet [("k", "stale")] (service_key id [("service_key", PyVal.str "k")])
       (payload_digest [("service_key", PyVal.str "k")]), 2⟩
    [Event.construct]
    (by rfl)
    (by decide)
    (by
      intro k v h
      simp only [alGet] at h
      split at h
      · cases h
        decide
      · cases h)
    (by
      intro k hk h
      simp only [alGet] at h
      split at h
      case isTrue heqk =>
        exact hk (heqk ▸ rfl)
      case isFalse => cases h)
    (by rfl)
  exact ⟨happ.1, rfl, happ.2.2.1, happ.2.2.2.1, happ.2.2.2.2.1, rfl⟩

theorem get_service_events_shape (ctor : PyDict → Except PyExc Unit) (resolve : String → String)
    (st : SvcState) (p : PyDict) (r : Except PyExc Nat) (st' : SvcState) (evs : List Event)
    (h : get_service ctor resolve st p = (r, st', evs)) :
    evs = [] ∨ evs = [Event.construct] := by
  by_cases hhit : (∃ s, alGet st.services (service_key resolve p) = some s) ∧
      alGet st.digests (service_key resolve p) = some (payload_digest p)
  · obtain ⟨⟨s, hs⟩, hdg⟩ := hhit
    rw [get_service_hit ctor resolve st p s hs hdg] at h
    simp only [Prod.mk.injEq] at h
    exact Or.inl h.2.2.symm
  · have hmiss : alGet st.services (service_key resolve p) = Option.none ∨
        alGet st.digests (service_key resolve p) ≠ some (payload_digest p) := by
      by_cases hdg : alGet st.digests (service_key resolve p) = some (payload_digest p)
      · left
        rcases hsv : alGet st.services (service_key resolve p) with _ | s
        · rfl
        · exact absurd ⟨⟨s, hsv⟩, hdg⟩ hhit
      · exact Or.inr hdg
    rw [get_service_miss ctor resolve st p hmiss] at h
    rcases rebuild_service_shape ctor st p (service_key resolve p) (payload_digest p)
        with ⟨e, heq⟩ | heq
    · rw [heq] at h
      simp only [Prod.mk.injEq] at h
      exact Or.inl h.2.2.symm
    · rw [heq] at h
      simp only [Prod.mk.injEq] at h
      exact Or.inr h.2.2.symm

/-- C2 (amended): a `memorize` request whose `payload.conversation`
normalizes to the empty sequence (empty list, non-list value, or every
message dropped) returns the structured domain no-op failure with
`ok: false`, writes no resource file and never invokes the library's
`memorize` operation. The service is still obtained via `_get_service`
before the emptiness check, so the external library's constructor may run
(refuted original clause; see the counterexample). -/
theorem op_memorize_empty_noop (ctor : PyDict → Except PyExc Unit) (resolve : String → String)
    (memuOp : Nat → String → Except PyExc PyVal) (now : Nat) (rand : String)
    (st : SvcState) (p : PyDict) (base : String) (svc : Nat) (st' : SvcState) (evs : List Event)
    (hdirs : ensure_dirs p = Except.ok base)
    (hsvc : get_service ctor resolve st p = (Except.ok svc, st', evs))
    (hnorm : normalize_conversation ((alGet p "conversation").getD PyVal.none) = Except.ok []) :
    op_memorize ctor resolve memuOp now rand st p =
      (Except.ok (PyVal.dict
        [("ok", PyVal.bool false), ("op", PyVal.str "memorize"),
         ("error", PyVal.str "payload.conversation must be a non-empty list (after normalization)")]),
       st', evs) ∧
    (∀ path, Event.memorizeCall path ∉ evs) ∧
    (∀ path, Event.fileWrite path ∉ evs) ∧
    alGet [("ok", PyVal.bool false), ("op", PyVal.str "memorize"),
      ("error", PyVal.str "payload.conversation must be a non-empty list (after normalization)")]
      "ok" = some (PyVal.bool false) := by
  refine ⟨?_, ?_, ?_, rfl⟩
  · simp only [op_memorize, hdirs, hsvc, hnorm, List.isEmpty_nil, if_true]
  · intro path hmem
    rcases get_service_events_shape ctor resolve st p _ st' evs hsvc with hsh | hsh <;>
      rw [hsh] at hmem <;> simp at hmem
  · intro path hmem
    rcases get_service_events_shape ctor resolve st p _ st' evs hsvc with hsh | hsh <;>
      rw [hsh] at hmem <;> simp at hmem

/-- C2 counterexample to the "never calls the external library" clause: an
empty-conversation memorize request against an empty cache still constructs
the external `MemoryService` (a `construct` event) via `_get_service`. -/
theorem op_memorize_empty_constructs :
    (op_memorize (fun _ => Except.ok ()) id (fun _ _ => Except.ok PyVal.none) 0 "r"
      ⟨[], [], 0⟩
      [("service_key", PyVal.str "k"), ("conversation", PyVal.list [])]).2.2 =
      [Event.construct] := rfl

/-- Witness instantiating `op_memorize_empty_noop` on a concrete
empty-conversation request over a warm cache. -/
theorem op_memorize_empty_noop_witness :
    op_memorize (fun _ => Except.ok ()) id (fun _ _ => Except.ok PyVal.none) 0 "r"
      ⟨[("k", 0)],
       [("k", payload_digest [("service_key", PyVal.str "k"), ("conversation", PyVal.list [])])], 1⟩
      [("service_key", PyVal.str "k"), ("conversation", PyVal.list [])] =
      (Except.ok (PyVal.dict
        [("ok", PyVal.bool false), ("op", PyVal.str "memorize"),
         ("error", PyVal.str "payload.conversation must be a non-empty list (after normalization)")]),
       ⟨[("k", 0)],
        [("k", payload_digest [("service_key", PyVal.str "k"), ("conversation", PyVal.list [])])], 1⟩,
       []) ∧
    (∀ path, Event.memorizeCall path ∉ ([] : List Event)) ∧
    (∀ path, Event.fileWrite path ∉ ([] : List Event)) ∧
    alGet [("ok", PyVal.bool false), ("op", PyVal.str "memorize"),
      ("error", PyVal.str "payload.conversation must be a non-empty list (after normalization)")]
      "ok" = some (PyVal.bool false) :=
  op_memorize_empty_noop (fun _ => Except.ok ()) id (fun _ _ => Except.ok PyVal.none) 0 "r"
    ⟨[("k", 0)],
     [("k", payload_digest [("service_key", PyVal.str "k"), ("conversation", PyVal.list [])])], 1⟩
    [("service_key", PyVal.str "k"), ("conversation", PyVal.list [])]
    "./data/resources" 0
    ⟨[("k", 0)],
     [("k", payload_digest [("service_key", PyVal.str "k"), ("conversation", PyVal.list [])])], 1⟩
    [] rfl (by rfl) rfl

/-! ## Daemon-loop theorems -/

/-- C8: a non-blank line that fails to parse as JSON makes the loop emit
exactly one error response with `ok: false` and no `id` key, and the loop
then processes the rest of the stream normally; a line parsing to a
non-object JSON value likewise yields one error response (also `ok: false`,
no `id`) and the loop continues. -/
theorem daemon_loop_malformed_line (loads : String → Except PyExc PyVal)
    (d : PyVal → PyVal → RunOut) (line : String) (rest : List String)
    (hline : line ≠ "") (hblank : pyStrip line ≠ "") :
    (∀ e, loads (pyStrip line) = Except.error e →
       daemon_loop loads d (line :: rest) = loopErrResp e :: daemon_loop loads d rest ∧
       ∃ res, loopErrResp e = PyVal.dict res ∧
         alGet res "ok" = some (PyVal.bool false) ∧ alGet res "id" = Option.none) ∧
    (∀ v, loads (pyStrip line) = Except.ok v → (∀ kvs, v ≠ PyVal.dict kvs) →
       daemon_loop loads d (line :: rest) = badRequestResp :: daemon_loop loads d rest ∧
       ∃ res, badRequestResp = PyVal.dict res ∧
         alGet res "ok" = some (PyVal.bool false) ∧ alGet res "id" = Option.none) := by
  have hstep : daemon_loop loads d (line :: rest) =
      processLine loads d (pyStrip line) :: daemon_loop loads d rest := by
    rw [daemon_loop, if_neg hline, if_neg hblank]
  constructor
  · intro e he
    refine ⟨?_, [("ok", PyVal.bool false), ("error", PyVal.str (e.name ++ ": " ++ e.msg))],
      rfl, rfl, rfl⟩
    rw [hstep]
    unfold processLine
    rw [he]
  · intro v hv hnd
    have hpl : processLine loads d (pyStrip line) = badRequestResp := by
      unfold processLine
      rw [hv]
      cases v with
      | dict kvs => exact absurd rfl (hnd kvs)
      | none => rfl
      | bool b => rfl
      | int n => rfl
      | str s => rfl
      | list xs => rfl
    refine ⟨?_, [("ok", PyVal.bool false),
      ("error", PyVal.str "Bad request: expected a JSON object")], rfl, rfl, rfl⟩
    rw [hstep, hpl]

/-- Witness instantiating `daemon_loop_malformed_line`: a parse failure and a
non-object line, each yielding one id-less `ok: false` response with the loop
continuing. -/
theorem daemon_loop_malformed_line_witness :
    (daemon_loop (fun _ => Except.error ⟨"JSONDecodeError", "Expecting value"⟩)
        (fun _ _ => RunOut.ok PyVal.none) ["oops"] =
      [loopErrResp ⟨"JSONDecodeError", "Expecting value"⟩] ∧
      ∃ res, loopErrResp ⟨"JSONDecodeError", "Expecting value"⟩ = PyVal.dict res ∧
        alGet res "ok" = some (PyVal.bool false) ∧ alGet res "id" = Option.none) ∧
    (daemon_loop (fun _ => Except.ok (PyVal.int 7))
        (fun _ _ => RunOut.ok PyVal.none) ["7"] =
      [badRequestResp] ∧
      ∃ res, badRequestResp = PyVal.dict res ∧
        alGet res "ok" = some (PyVal.bool false) ∧ alGet res "id" = Option.none) :=
  ⟨((daemon_loop_malformed_line (fun _ => Except.error ⟨"JSONDecodeError", "Expecting value"⟩)
      (fun _ _ => RunOut.ok PyVal.none) "oops" [] (by decide) (by decide)).1
      ⟨"JSONDecodeError", "Expecting value"⟩ rfl),
   ((daemon_loop_malformed_line (fun _ => Except.ok (PyVal.int 7))
      (fun _ _ => RunOut.ok PyVal.none) "7" [] (by decide) (by decide)).2
      (PyVal.int 7) rfl (fun kvs h => by cases h))⟩

/-- C1: the daemon loop terminates only on end-of-stream (exhausted input or
an explicit empty read); for every non-empty line the loop emits at most one
response and always continues with the rest of the stream, whatever the
dispatch function does; a parse exception becomes a single `ok: false`
response; and a dispatch outcome that raises any exception class whatsoever
(`SystemExit` and `KeyboardInterrupt` included, since the exception name is
universally quantified) is converted into a single `ok: false` response for
that line. -/
theorem daemon_loop_total_containment (loads : String → Except PyExc PyVal)
    (d : PyVal → PyVal → RunOut) :
    (daemon_loop loads d [] = []) ∧
    (∀ rest, daemon_loop loads d ("" :: rest) = []) ∧
    (∀ line rest, line ≠ "" →
       daemon_loop loads d (line :: rest) =
         (if pyStrip line = "" then [] else [processLine loads d (pyStrip line)]) ++
           daemon_loop loads d rest) ∧
    (∀ l e, loads l = Except.error e →
       ∃ res, processLine loads d l = PyVal.dict res ∧
         alGet res "ok" = some (PyVal.bool false)) ∧
    (∀ l kvs e, loads l = Except.ok (PyVal.dict kvs) →
       d ((alGet kvs "op").getD PyVal.none)
         (match getOrDefault kvs "payload" (PyVal.dict []) with
          | PyVal.dict pkvs => PyVal.dict pkvs
          | _ => PyVal.dict []) = RunOut.exc e →
       ∃ res, processLine loads d l = PyVal.dict res ∧
         alGet res "ok" = some (PyVal.bool false)) := by
  refine ⟨rfl, fun rest => rfl, ?_, ?_, ?_⟩
  · intro line rest hline
    rw [daemon_loop, if_neg hline]
    by_cases hblank : pyStrip line = ""
    · rw [if_pos hblank, if_pos hblank, List.nil_append]
    · rw [if_neg hblank, if_neg hblank, List.singleton_append]
  · intro l e he
    refine ⟨[("ok", PyVal.bool false), ("error", PyVal.str (e.name ++ ": " ++ e.msg))], ?_, rfl⟩
    unfold processLine
    rw [he]
    rfl
  · intro l kvs e hl hd
    simp only [processLine, hl, handleRequest, hd]
    rcases hid : (alGet kvs "id").getD PyVal.none with _ | b | n | s | xs | g <;>
      simp only [hid]
    · exact ⟨_, rfl, rfl⟩
    · refine ⟨_, rfl, ?_⟩
      rw [alGet_alSet_ne _ (show ("ok" : String) ≠ "id" by decide)]
      rfl
    · refine ⟨_, rfl, ?_⟩
      rw [alGet_alSet_ne _ (show ("ok" : String) ≠ "id" by decide)]
      rfl
    · refine ⟨_, rfl, ?_⟩
      rw [alGet_alSet_ne _ (show ("ok" : String) ≠ "id" by decide)]
      rfl
    · refine ⟨_, rfl, ?_⟩
      rw [alGet_alSet_ne _ (show ("ok" : String) ≠ "id" by decide)]
      rfl
    · refine ⟨_, rfl, ?_⟩
      rw [alGet_alSet_ne _ (show ("ok" : String) ≠ "id" by decide)]
      rfl

/-- Witness instantiating `daemon_loop_total_containment`: a `SystemExit`
raised by dispatch on a parsed request with an `id`, and a parse failure,
each yield a single `ok: false` response. -/
theorem daemon_loop_total_containment_witness :
    (∃ res, processLine
        (fun s => if s = "REQ" then
            Except.ok (PyVal.dict [("id", PyVal.int 1), ("op", PyVal.str "memorize")])
          else Except.error ⟨"JSONDecodeError", "Expecting value"⟩)
        (fun _ _ => RunOut.exc ⟨"SystemExit", "2"⟩) "REQ" = PyVal.dict res ∧
        alGet res "ok" = some (PyVal.bool false)) ∧
    (∃ res, processLine
        (fun s => if s = "REQ" then
            Except.ok (PyVal.dict [("id", PyVal.int 1), ("op", PyVal.str "memorize")])
          else Except.error ⟨"JSONDecodeError", "Expecting value"⟩)
        (fun _ _ => RunOut.exc ⟨"SystemExit", "2"⟩) "bad" = PyVal.dict res ∧
        alGet res "ok" = some (PyVal.bool false)) :=
  ⟨(daemon_loop_total_containment
      (fun s => if s = "REQ" then
          Except.ok (PyVal.dict [("id", PyVal.int 1), ("op", PyVal.str "memorize")])
        else Except.error ⟨"JSONDecodeError", "Expecting value"⟩)
      (fun _ _ => RunOut.exc ⟨"SystemExit", "2"⟩)).2.2.2.2 "REQ"
      [("id", PyVal.int 1), ("op", PyVal.str "memorize")] ⟨"SystemExit", "2"⟩ (by rfl) rfl,
   (daemon_loop_total_containment
      (fun s => if s = "REQ" then
          Except.ok (PyVal.dict [("id", PyVal.int 1), ("op", PyVal.str "memorize")])
        else Except.error ⟨"JSONDecodeError", "Expecting value"⟩)
      (fun _ _ => RunOut.exc ⟨"SystemExit", "2"⟩)).2.2.2.1 "bad"
      ⟨"JSONDecodeError", "Expecting value"⟩ (by rfl)⟩

/-! ## Configuration-filter non-interference -/

/-- The keyword arguments `_get_service` forwards to the `MemoryService`
constructor on its construction path: `_memu_kwargs` applied to the payload
after `_massage_llm_profiles` (or the massage exception when it raises). -/
def forwarded_kwargs (p : PyDict) : Except PyExc PyDict :=
  (massage_llm_profiles p).map memu_kwargs

theorem memu_kwargs_congr (p1 p2 : PyDict)
    (hagree : ∀ k ∈ MEMU_KEYS, alGet p1 k = alGet p2 k) :
    memu_kwargs p1 = memu_kwargs p2 := by
  unfold memu_kwargs
  exact List.filterMap_congr (fun k hk => by rw [hagree k hk])

/-- C9: two payloads that agree on the seven recognized configuration fields
have equal configuration fingerprints and equal forwarded construction
keyword arguments; top-level fields outside the allow-list influence
neither. -/
theorem config_filter_noninterference (p1 p2 : PyDict)
    (hagree : ∀ k ∈ MEMU_KEYS, alGet p1 k = alGet p2 k) :
    payload_digest p1 = payload_digest p2 ∧
    forwarded_kwargs p1 = forwarded_kwargs p2 := by
  have hkw := memu_kwargs_congr p1 p2 hagree
  constructor
  · unfold payload_digest
    rw [hkw]
  · have hprof : alGet p1 "llm_profiles" = alGet p2 "llm_profiles" :=
      hagree "llm_profiles" (by simp [MEMU_KEYS])
    unfold forwarded_kwargs massage_llm_profiles
    rw [hprof]
    rcases hv : alGet p2 "llm_profiles" with _ | v
    · simp only [Except.map]
      rw [hkw]
    · cases v with
      | dict profiles =>
          rcases hm : massage_profiles profiles with e | profiles'
          · simp only [hm]
          · simp only [hm, Except.map, Except.ok.injEq]
            apply memu_kwargs_congr
            intro k hk
            by_cases hkey : k = "llm_profiles"
            · subst hkey
              rw [alGet_alSet_self, alGet_alSet_self]
            · rw [alGet_alSet_ne _ hkey, alGet_alSet_ne _ hkey]
              exact hagree k hk
      | none =>
          simp only [Except.map]
          rw [hkw]
      | bool b =>
          simp only [Except.map]
          rw [hkw]
      | int n =>
          simp only [Except.map]
          rw [hkw]
      | str s =>
          simp only [Except.map]
          rw [hkw]
      | list xs =>
          simp only [Except.map]
          rw [hkw]

/-- Witness instantiating `config_filter_noninterference`: payloads with the
same `llm_profiles` but different `service_key` and an extra unrecognized
top-level field share the same fingerprint and forwarded kwargs. -/
theorem config_filter_noninterference_witness :
    payload_digest [("llm_profiles", PyVal.dict []), ("service_key", PyVal.str "a")] =
      payload_digest [("llm_profiles", PyVal.dict []), ("service_key", PyVal.str "b"),
        ("unrecognized_option", PyVal.int 3)] ∧
    forwarded_kwargs [("llm_profiles", PyVal.dict []), ("service_key", PyVal.str "a")] =
      forwarded_kwargs [("llm_profiles", PyVal.dict []), ("service_key", PyVal.str "b"),
        ("unrecognized_option", PyVal.int 3)] :=
  config_filter_noninterference
    [("llm_profiles", PyVal.dict []), ("service_key", PyVal.str "a")]
    [("llm_profiles", PyVal.dict []), ("service_key", PyVal.str "b"),
     ("unrecognized_option", PyVal.int 3)]
    (by
      intro k hk
      simp only [MEMU_KEYS, List.mem_cons, List.not_mem_nil, or_false] at hk
      rcases hk with rfl | rfl | rfl | rfl | rfl | rfl | rfl <;> rfl)

/-! ## Digest-before-massage behaviour -/

/-- Payload with an openai profile whose `base_url` lacks the trailing
`/v1`. -/
def payload_base_url_bare : PyDict :=
  [("service_key", PyVal.str "k"),
   ("llm_profiles", PyVal.dict
     [("default", PyVal.dict
       [("provider", PyVal.str "openai"), ("base_url", PyVal.str "http://h")])])]

/-- The same payload with the already-normalized `base_url`. -/
def payload_base_url_v1 : PyDict :=
  [("service_key", PyVal.str "k"),
   ("llm_profiles", PyVal.dict
     [("default", PyVal.dict
       [("provider", PyVal.str "openai"), ("base_url", PyVal.str "http://h/v1")])])]

/-- C10: the fingerprint is computed from the raw filtered payload before
`_massage_llm_profiles`, and that normalization runs only on the construction
path. The two payloads above map to the same cache key and have identical
forwarded construction kwargs after massage, yet their fingerprints differ,
so the second request triggers a reconstruction that replaces the cached
instance (instance 0 is replaced by the freshly constructed instance 1). -/
theorem digest_precedes_massage :
    service_key id payload_base_url_bare = service_key id payload_base_url_v1 ∧
    forwarded_kwargs payload_base_url_bare = forwarded_kwargs payload_base_url_v1 ∧
    payload_digest payload_base_url_bare ≠ payload_digest payload_base_url_v1 ∧
    (let r1 := get_service (fun _ => Except.ok ()) id ⟨[], [], 0⟩ payload_base_url_bare
     let r2 := get_service (fun _ => Except.ok ()) id r1.2.1 payload_base_url_v1
     r1.1 = Except.ok 0 ∧ r1.2.2 = [Event.construct] ∧
     alGet r1.2.1.services "k" = some 0 ∧
     r2.1 = Except.ok 1 ∧ r2.2.2 = [Event.construct] ∧
     alGet r2.2.1.services "k" = some 1) := by
  refine ⟨rfl, rfl, ?_, rfl, rfl, rfl, rfl, rfl, rfl⟩
  decide

/-! ## Concurrency-model lemmas -/

theorem mem_alGet_of_nodup {α : Type} (l : List (String × α)) (k : String) (v : α)
    (hnd : (l.map Prod.fst).Nodup) (hmem : (k, v) ∈ l) : alGet l k = some v := by
  induction l with
  | nil => simp at hmem
  | cons hd tl ih =>
      obtain ⟨k₀, v₀⟩ := hd
      rw [List.map_cons, List.nodup_cons] at hnd
      rcases List.mem_cons.mp hmem with h | h
      · injection h with h1 h2
        subst h1
        subst h2
        rw [alGet, if_pos rfl]
      · have hk0 : k₀ ≠ k := by
          intro hkk
          subst hkk
          exact hnd.1 (List.mem_map.mpr ⟨(k₀, v), h, rfl⟩)
        rw [alGet, if_neg hk0]
        exact ih hnd.2 h

/-- The critical section either leaves the state untouched, or (only on a
cache miss for its key) constructs: it bumps `nextId` by one and afterwards
the key maps to the fresh instance with the fresh digest. -/
theorem get_service_crit_effect (ctor : PyDict → Except PyExc Unit) (resolve : String → String)
    (st : SvcState) (p : PyDict) :
    (get_service_crit ctor resolve st p).2.1 = st ∨
    (¬ ((∃ s, alGet st.services (service_key resolve p) = some s) ∧
        alGet st.digests (service_key resolve p) = some (payload_digest p)) ∧
     (get_service_crit ctor resolve st p).2.1.nextId = st.nextId + 1 ∧
     ((∃ s, alGet (get_service_crit ctor resolve st p).2.1.services (service_key resolve p) = some s) ∧
      alGet (get_service_crit ctor resolve st p).2.1.digests (service_key resolve p) =
        some (payload_digest p))) := by
  have hgs : get_service_crit ctor resolve st p = get_service ctor resolve st p := rfl
  rw [hgs]
  by_cases hhit : (∃ s, alGet st.services (service_key resolve p) = some s) ∧
      alGet st.digests (service_key resolve p) = some (payload_digest p)
  · obtain ⟨⟨s, hs⟩, hdg⟩ := hhit
    rw [get_service_hit ctor resolve st p s hs hdg]
    exact Or.inl rfl
  · have hmiss : alGet st.services (service_key resolve p) = Option.none ∨
        alGet st.digests (service_key resolve p) ≠ some (payload_digest p) := by
      by_cases hdg : alGet st.digests (service_key resolve p) = some (payload_digest p)
      · left
        rcases hsv : alGet st.services (service_key resolve p) with _ | s
        · rfl
        · exact absurd ⟨⟨s, hsv⟩, hdg⟩ hhit
      · exact Or.inr hdg
    rw [get_service_miss ctor resolve st p hmiss]
    rcases rebuild_service_shape ctor st p (service_key resolve p) (payload_digest p)
        with ⟨e, heq⟩ | heq
    · rw [heq]
      exact Or.inl rfl
    · rw [heq]
      refine Or.inr ⟨hhit, rfl, ⟨st.nextId, alGet_alSet_self _ _ _⟩, alGet_alSet_self _ _ _⟩

/-- Invariant for two same-key same-digest calls: at most one construction
has happened, and none before the key is cached with the common digest. -/
def sameKeyInv (resolve : String → String) (pA : PyDict) (n0 : Nat) (c : CConf) : Prop :=
  c.st.nextId ≤ n0 + 1 ∧
  (¬ ((∃ s, alGet c.st.services (service_key resolve pA) = some s) ∧
      alGet c.st.digests (service_key resolve pA) = some (payload_digest pA)) →
    c.st.nextId = n0)

theorem cstep_eq_waiting_free (ctor : PyDict → Except PyExc Unit) (resolve : String → String)
    (pl : Bool → PyDict) (i : Bool) (c : CConf)
    (hph : c.ph i = Phase.waiting)
    (hfl : alGet c.locks (service_key resolve (pl i)) = Option.none) :
    cstep ctor resolve pl i c =
      { c with locks := alSet c.locks (service_key resolve (pl i)) i,
               ph := fun j => if j = i then Phase.locked else c.ph j } := by
  simp only [cstep, hph, hfl]

theorem cstep_eq_waiting_held (ctor : PyDict → Except PyExc Unit) (resolve : String → String)
    (pl : Bool → PyDict) (i h : Bool) (c : CConf)
    (hph : c.ph i = Phase.waiting)
    (hfl : alGet c.locks (service_key resolve (pl i)) = some h) :
    cstep ctor resolve pl i c = c := by
  simp only [cstep, hph, hfl]

theorem cstep_eq_locked (ctor : PyDict → Except PyExc Unit) (resolve : String → String)
    (pl : Bool → PyDict) (i : Bool) (c : CConf)
    (hph : c.ph i = Phase.locked) :
    cstep ctor resolve pl i c =
      { st := (get_service_crit ctor resolve c.st (pl i)).2.1,
        locks := c.locks.filter (fun kv => kv.1 ≠ service_key resolve (pl i)),
        ph := fun j => if j = i then Phase.done else c.ph j } := by
  simp only [cstep, hph]

theorem cstep_eq_done (ctor : PyDict → Except PyExc Unit) (resolve : String → String)
    (pl : Bool → PyDict) (i : Bool) (c : CConf)
    (hph : c.ph i = Phase.done) :
    cstep ctor resolve pl i c = c := by
  simp only [cstep, hph]

theorem cstep_preserves_sameKeyInv (ctor : PyDict → Except PyExc Unit)
    (resolve : String → String) (pA : PyDict) (pl : Bool → PyDict) (n0 : Nat)
    (hk : ∀ j, service_key resolve (pl j) = service_key resolve pA)
    (hd : ∀ j, payload_digest (pl j) = payload_digest pA)
    (i : Bool) (c : CConf) (hinv : sameKeyInv resolve pA n0 c) :
    sameKeyInv resolve pA n0 (cstep ctor resolve pl i c) := by
  rcases hph : c.ph i with _ | _ | _
  · rcases hfl : alGet c.locks (service_key resolve (pl i)) with _ | h'
    · rw [cstep_eq_waiting_free ctor resolve pl i c hph hfl]
      exact hinv
    · rw [cstep_eq_waiting_held ctor resolve pl i h' c hph hfl]
      exact hinv
  · rw [cstep_eq_locked ctor resolve pl i c hph]
    rcases get_service_crit_effect ctor resolve c.st (pl i)
        with heff | ⟨hmiss, hnext, hhit'⟩
    · unfold sameKeyInv
      rw [heff]
      exact hinv
    · rw [hk i, hd i] at hmiss hhit'
      constructor
      · show (get_service_crit ctor resolve c.st (pl i)).2.1.nextId ≤ n0 + 1
        rw [hnext, hinv.2 hmiss]
      · intro hnothit
        exact absurd hhit' hnothit
  · rw [cstep_eq_done ctor resolve pl i c hph]
    exact hinv

theorem crun_preserves_sameKeyInv (ctor : PyDict → Except PyExc Unit)
    (resolve : String → String) (pA : PyDict) (pl : Bool → PyDict) (n0 : Nat)
    (hk : ∀ j, service_key resolve (pl j) = service_key resolve pA)
    (hd : ∀ j, payload_digest (pl j) = payload_digest pA) :
    ∀ (sched : List Bool) (c : CConf), sameKeyInv resolve pA n0 c →
      sameKeyInv resolve pA n0 (crun ctor resolve pl sched c)
  | [], _, h => h
  | i :: sched, c, h =>
      crun_preserves_sameKeyInv ctor resolve pA pl n0 hk hd sched _
        (cstep_preserves_sameKeyInv ctor resolve pA pl n0 hk hd i c h)

/-- Lock-table invariant: keys are distinct, and every held lock is held by a
call in the `locked` phase for its own key. -/
def lockInv (resolve : String → String) (pl : Bool → PyDict) (c : CConf) : Prop :=
  (c.locks.map Prod.fst).Nodup ∧
  ∀ kk h, alGet c.locks kk = some h →
    kk = service_key resolve (pl h) ∧ c.ph h = Phase.locked

theorem cstep_preserves_lockInv (ctor : PyDict → Except PyExc Unit)
    (resolve : String → String) (pl : Bool → PyDict) (j : Bool) (c : CConf)
    (h : lockInv resolve pl c) : lockInv resolve pl (cstep ctor resolve pl j c) := by
  rcases hph : c.ph j with _ | _ | _
  · rcases hfl : alGet c.locks (service_key resolve (pl j)) with _ | h'
    · rw [cstep_eq_waiting_free ctor resolve pl j c hph hfl]
      constructor
      · exact nodup_keys_alSet _ _ _ h.1
      · intro kk hh hget
        rcases alGet_alSet_or _ _ _ _ _ hget with ⟨hkk, hhh⟩ | hget'
        · subst hhh
          subst hkk
          exact ⟨rfl, by simp⟩
        · obtain ⟨hkk, hphh⟩ := h.2 kk hh hget'
          refine ⟨hkk, ?_⟩
          show (if hh = j then Phase.locked else c.ph hh) = Phase.locked
          by_cases hhj : hh = j
          · rw [if_pos hhj]
          · rw [if_neg hhj]
            exact hphh
    · rw [cstep_eq_waiting_held ctor resolve pl j h' c hph hfl]
      exact h
  · rw [cstep_eq_locked ctor resolve pl j c hph]
    constructor
    · exact h.1.sublist ((List.filter_sublist c.locks).map Prod.fst)
    · intro kk hh hget
      have hmem := alGet_mem _ _ _ hget
      have hmem' := List.mem_of_mem_filter hmem
      have hpred := List.of_mem_filter hmem
      have hget' : alGet c.locks kk = some hh := mem_alGet_of_nodup _ _ _ h.1 hmem'
      obtain ⟨hkk, hphh⟩ := h.2 kk hh hget'
      refine ⟨hkk, ?_⟩
      show (if hh = j then Phase.done else c.ph hh) = Phase.locked
      by_cases hhj : hh = j
      · exfalso
        subst hhj
        rw [hkk] at hpred
        simp at hpred
      · rw [if_neg hhj]
        exact hphh
  · rw [cstep_eq_done ctor resolve pl j c hph]
    exact h

theorem crun_preserves_lockInv (ctor : PyDict → Except PyExc Unit)
    (resolve : String → String) (pl : Bool → PyDict) :
    ∀ (sched : List Bool) (c : CConf), lockInv resolve pl c →
      lockInv resolve pl (crun ctor resolve pl sched c)
  | [], _, h => h
  | i :: sched, c, h =>
      crun_preserves_lockInv ctor resolve pl sched _
        (cstep_preserves_lockInv ctor resolve pl i c h)

/-- A waiting call whose key differs from the other call's key is never
blocked: its scheduler step always acquires the lock. -/
theorem cstep_unblocks (ctor : PyDict → Except PyExc Unit) (resolve : String → String)
    (pl : Bool → PyDict) (i : Bool) (c : CConf)
    (hLI : lockInv resolve pl c)
    (hdist : ∀ h : Bool, h ≠ i → service_key resolve (pl h) ≠ service_key resolve (pl i))
    (hw : c.ph i = Phase.waiting) :
    (cstep ctor resolve pl i c).ph i = Phase.locked := by
  have hfree : alGet c.locks (service_key resolve (pl i)) = Option.none := by
    rcases hfl : alGet c.locks (service_key resolve (pl i)) with _ | h
    · rfl
    · exfalso
      obtain ⟨hkk, hph⟩ := hLI.2 _ _ hfl
      by_cases hih : h = i
      · subst hih
        rw [hph] at hw
        cases hw
      · exact hdist h hih hkk.symm
  rw [cstep_eq_waiting_free ctor resolve pl i c hw hfree]
  simp

/-- C3 (amended): for two interleaved `_get_service` calls under the per-key
lock protocol, if the payloads map to the same cache key and the same
configuration fingerprint then at most one service construction occurs over
every schedule; and when the two keys are distinct the calls never block one
another — a waiting call acquires its lock whenever it is scheduled. (The
claim as frozen, without the equal-fingerprint proviso, is refuted by the
separate counterexample: same key with different fingerprints reconstructs.) -/
theorem get_service_concurrent_safety (ctor : PyDict → Except PyExc Unit)
    (resolve : String → String) (pA pB : PyDict) (st0 : SvcState) (sched : List Bool) :
    (service_key resolve pB = service_key resolve pA →
     payload_digest pB = payload_digest pA →
     (crun ctor resolve (fun j => if j then pB else pA) sched (cinit st0)).st.nextId ≤
       st0.nextId + 1) ∧
    (service_key resolve pA ≠ service_key resolve pB →
     ∀ i, (crun ctor resolve (fun j => if j then pB else pA) sched (cinit st0)).ph i =
            Phase.waiting →
       (cstep ctor resolve (fun j => if j then pB else pA) i
          (crun ctor resolve (fun j => if j then pB else pA) sched (cinit st0))).ph i =
         Phase.locked) := by
  constructor
  · intro hk hd
    have hkj : ∀ j : Bool, service_key resolve (if j then pB else pA) = service_key resolve pA := by
      intro j
      cases j
      · rfl
      · exact hk
    have hdj : ∀ j : Bool, payload_digest (if j then pB else pA) = payload_digest pA := by
      intro j
      cases j
      · rfl
      · exact hd
    have hinit : sameKeyInv resolve pA st0.nextId (cinit st0) :=
      ⟨Nat.le_succ _, fun _ => rfl⟩
    exact (crun_preserves_sameKeyInv ctor resolve pA _ st0.nextId hkj hdj sched
      (cinit st0) hinit).1
  · intro hne i hw
    have hinit : lockInv resolve (fun j => if j then pB else pA) (cinit st0) := by
      refine ⟨by simp [cinit], ?_⟩
      intro kk h hget
      exact absurd hget (by simp [cinit, alGet])
    refine cstep_unblocks ctor resolve _ i _
      (crun_preserves_lockInv ctor resolve _ sched (cinit st0) hinit) ?_ hw
    intro h hh
    cases i
    · cases h
      · exact absurd rfl hh
      · exact fun heq => hne heq.symm
    · cases h
      · exact hne
      · exact absurd rfl hh

/-- Payload mapping to key `"k"` with the empty recognized configuration. -/
def same_key_pA : PyDict := [("service_key", PyVal.str "k")]

/-- Payload mapping to the same key `"k"` but with a different recognized
configuration, hence a different fingerprint. -/
def same_key_pB : PyDict :=
  [("service_key", PyVal.str "k"), ("database_config", PyVal.dict [("x", PyVal.int 1)])]

/-- C3 counterexample to the claim as frozen: two concurrent calls whose
payloads map to the same cache key (but differ in fingerprint) perform two
constructions — serialized one after the other by the lock, the second call
sees a digest mismatch and rebuilds. -/
theorem concurrent_same_key_two_constructions :
    service_key id same_key_pA = service_key id same_key_pB ∧
    ¬ ((crun (fun _ => Except.ok ()) id
          (fun j => if j then same_key_pB else same_key_pA)
          [false, false, true, true] (cinit ⟨[], [], 0⟩)).st.nextId ≤
        (⟨[], [], 0⟩ : SvcState).nextId + 1) := by
  refine ⟨rfl, ?_⟩
  decide

/-- Witness instantiating `get_service_concurrent_safety`: identical payloads
under key `"k"` construct at most once over a complete schedule, and with
distinct keys `"a"`/`"b"` the second call acquires its lock even while the
first holds its own. -/
theorem get_service_concurrent_safety_witness :
    ((crun (fun _ => Except.ok ()) id
        (fun j => if j then same_key_pA else same_key_pA)
        [false, false, true, true] (cinit ⟨[], [], 0⟩)).st.nextId ≤
      (⟨[], [], 0⟩ : SvcState).nextId + 1) ∧
    ((cstep (fun _ => Except.ok ()) id
        (fun j => if j then [("service_key", PyVal.str "b")] else [("service_key", PyVal.str "a")])
        true
        (crun (fun _ => Except.ok ()) id
          (fun j => if j then [("service_key", PyVal.str "b")] else [("service_key", PyVal.str "a")])
          [false] (cinit ⟨[], [], 0⟩))).ph true = Phase.locked) :=
  ⟨(get_service_concurrent_safety (fun _ => Except.ok ()) id same_key_pA same_key_pA
      ⟨[], [], 0⟩ [false, false, true, true]).1 rfl rfl,
   (get_service_concurrent_safety (fun _ => Except.ok ()) id
      [("service_key", PyVal.str "a")] [("service_key", PyVal.str "b")]
      ⟨[], [], 0⟩ [false]).2 (by decide) true (by decide)⟩
